import Mathlib

/-!
Shallow embedding of `Targeting_fragment_size.py` (Virtual Southern Blotting tool).

Stage 1 (`calc-distances`): `read_enzyme_positions`, `find_closest`,
`calculate_distances`, `write_results`.
Stage 2 (`finalize-distances`): `calculate_final_distances`, `write_final_distances`.

Modelling conventions:
* CSV input files are `List (List String)` (a list of rows, each a list of cells).
* Python dicts are association lists preserving insertion order; `updKey` models
  "insert-or-overwrite" (new keys are appended at the end, as in Python dicts),
  `getKey` models lookup.
* A Python value that is either a string or an int (the cells of stage 1's rows)
  is a `Cell`; `csv.writer` stringifies every cell via `str`, modelled by
  `Cell.render`.
* A fallible Python computation (an `int(...)` call that can raise `ValueError`,
  a `row[...]` lookup that can raise `KeyError`) is an `Except String` value whose
  error carries the offending token.
* `csv.DictReader` rows are modelled as the association list `header.zip row`;
  rows shorter than the header (which `DictReader` pads with a null value) are
  outside the model, as nothing in this development exercises them.
* The Python `set` used for stage 2's dynamic fieldnames is a `Finset String`;
  the source converts it to a list in unspecified order, so the model keeps the set.
-/

deriving instance DecidableEq for Except

/-- Is `c` one of the digits `'0'..'9'`, and which? -/
def charDigit? (c : Char) : Option Nat :=
  if '0' ≤ c ∧ c ≤ '9' then some (c.toNat - 48) else none

/-- Left-to-right accumulation of a digit string. -/
def parseNatAux (acc : Nat) : List Char → Option Nat
  | [] => some acc
  | c :: rest =>
    match charDigit? c with
    | none => none
    | some d => parseNatAux (acc * 10 + d) rest

/-- Python's `int(s)`: an optional sign followed by at least one digit
(Python's additional tolerance of surrounding whitespace and embedded
underscores is not modelled; nothing in this development produces such input). -/
def parseInt (s : String) : Option Int :=
  match s.data with
  | [] => none
  | '-' :: rest => if rest = [] then none else (parseNatAux 0 rest).map (fun n => -(n : Int))
  | '+' :: rest => if rest = [] then none else (parseNatAux 0 rest).map (fun n => (n : Int))
  | l => (parseNatAux 0 l).map (fun n => (n : Int))

/-- A cell value as it lives in the Python row lists: either a string or an int. -/
inductive Cell where
  | str : String → Cell
  | int : Int → Cell
deriving DecidableEq, Repr

/-- `str(x)` as applied by `csv.writer` to each cell. -/
def Cell.render : Cell → String
  | .str s => s
  | .int n => toString n

/-- Python dict update `d[k] = f(d.get(k))`: overwrite in place if the key is
present, otherwise append the new key at the end (Python dict insertion order). -/
def updKey {α : Type} (k : String) (f : Option α → α) : List (String × α) → List (String × α)
  | [] => [(k, f none)]
  | (k2, v) :: rest => if k2 = k then (k2, f (some v)) :: rest else (k2, v) :: updKey k f rest

/-- Python dict lookup `d.get(k)`. -/
def getKey {α : Type} (l : List (String × α)) (k : String) : Option α :=
  (l.find? (fun p => p.1 == k)).map Prod.snd

/-- Did the computation abort with an exception? -/
def isErr {α : Type} : Except String α → Bool
  | .error _ => true
  | .ok _ => false

/-- The Enzyme Site Index: enzyme → chromosome → list of positions. -/
abbrev EnzymePositions := List (String × List (String × List Int))

/-- The row loop of `read_enzyme_positions`: rows with exactly three fields are
accumulated (`enzyme_positions[enzyme][chromosome].append(int(position))`),
rows with any other field count are skipped with a warning; a non-integer
position raises `ValueError`, aborting the run. -/
def readEnzymeRows : List (List String) → EnzymePositions → Except String EnzymePositions
  | [], acc => .ok acc
  | row :: rest, acc =>
    match row with
    | [enzyme, chromosome, position] =>
      match parseInt position with
      | some p =>
        readEnzymeRows rest
          (updKey enzyme
            (fun m => updKey chromosome (fun l => (l.getD []) ++ [p]) (m.getD [])) acc)
      | none => .error position
    | _ => readEnzymeRows rest acc

/-- `read_enzyme_positions`: accumulate all rows, then sort every chromosome's
position list ascending. -/
def read_enzyme_positions (rows : List (List String)) : Except String EnzymePositions :=
  (readEnzymeRows rows []).map
    (fun acc => acc.map (fun ec => (ec.1, ec.2.map (fun cl => (cl.1, List.insertionSort (· ≤ ·) cl.2)))))

/-- The scanning loop of `find_closest`: `upstream` is overwritten by every
element `< target`; the scan stops at the first element `> target`, which
becomes `downstream`. An element equal to `target` is skipped. -/
def find_closest_loop (target : Int) : List Int → Option Int → Option Int × Option Int
  | [], upstream => (upstream, none)
  | pos :: rest, upstream =>
    if pos < target then find_closest_loop target rest (some pos)
    else if target < pos then (upstream, some pos)
    else find_closest_loop target rest upstream

/-- `find_closest(positions, target)` from the source. -/
def find_closest (positions : List Int) (target : Int) : Option Int × Option Int :=
  find_closest_loop target positions none

/-- The per-enzyme chunk `[enzyme, upstream_distance, downstream_distance]`
appended to `row_data` by the inner loop of `calculate_distances`. -/
def enzymeFields (chrMap : List (String × List Int)) (chromosome : String)
    (position : Int) (enzyme : String) : List Cell :=
  match getKey chrMap chromosome with
  | some positions =>
    let ud := find_closest positions position
    [Cell.str enzyme,
     (match ud.1 with | some u => Cell.int (position - u) | none => Cell.str "N/A"),
     (match ud.2 with | some d => Cell.int (d - position) | none => Cell.str "N/A")]
  | none => [Cell.str enzyme, Cell.str "N/A", Cell.str "N/A"]

/-- One `row_data` of `calculate_distances`: the three identity cells followed by
the per-enzyme chunks in index (discovery) order. -/
def siteRow (ep : EnzymePositions) (site_id chromosome : String) (position : Int) : List Cell :=
  [Cell.str site_id, Cell.str chromosome, Cell.int position] ++
    ep.flatMap (fun ec => enzymeFields ec.2 chromosome position ec.1)

/-- The row loop of `calculate_distances` over the integration-site file:
3-field rows produce a `siteRow`, other rows are skipped with a warning,
a non-integer position aborts the run. -/
def calcRows (ep : EnzymePositions) : List (List String) → Except String (List (List Cell))
  | [] => .ok []
  | row :: rest =>
    match row with
    | [site_id, chromosome, position] =>
      match parseInt position with
      | some p => (calcRows ep rest).map (fun rs => siteRow ep site_id chromosome p :: rs)
      | none => .error position
    | _ => calcRows ep rest

/-- `calculate_distances(enzyme_positions, integration_sites)` from the source. -/
def calculate_distances (ep : EnzymePositions) (rows : List (List String)) :
    Except String (List (List Cell)) :=
  calcRows ep rows

/-- `range(0, len(chunked), 3)` indexing: every third element of a list. -/
def every3 {α : Type} : List α → List α
  | [] => []
  | [x] => [x]
  | [x, _] => [x]
  | x :: _ :: _ :: rest => x :: every3 rest

/-- `write_results`: on an empty result list, print an informational message and
write nothing (`none`); otherwise derive the enzyme names from the first row,
emit the header, then every `row_data` verbatim (stringified). -/
def write_results (results : List (List Cell)) : Option (List (List String)) :=
  match results with
  | [] => none
  | row_example :: _ =>
    let enzyme_names := every3 (row_example.drop 3)
    let header := ["IntegrationSite#", "Chromosome", "Position"] ++
      enzyme_names.flatMap (fun e => [e.render ++ " UpstreamDist", e.render ++ " DownstreamDist"])
    some (header :: results.map (fun r => r.map Cell.render))

/-- The whole of stage 1 (`calc-distances`): build the index, compute the
distance rows, write them. The result is `none` when no file was produced. -/
def stage1 (erows irows : List (List String)) : Except String (Option (List (List String))) :=
  match read_enzyme_positions erows with
  | .error e => .error e
  | .ok ep =>
    match calculate_distances ep irows with
    | .error e => .error e
    | .ok results => .ok (write_results results)

/-- The Direction Assignment: site → (composite key → "up"/"down"). -/
abbrev Directions := List (String × List (String × String))

/-- The Fragment Length Spec: one `(Name, L, H)` triple per enzyme. -/
abbrev Lengths := List (String × Int × Int)

/-- A Final Distance Record, i.e. a `new_row` dict of `calculate_final_distances`. -/
abbrev Rec := List (String × Cell)

/-- The per-(enzyme, direction_type) body of `calculate_final_distances`:
resolve the assigned direction to a distance column, then either take the
parsed base distance plus the offset, or the `'N/A'` sentinel; an unparseable
column value raises `ValueError` (`.error`). -/
def finalCell (rowD sdirs : List (String × String)) (offset : Int)
    (enzyme direction_type : String) : Except String Cell :=
  let direction_key := enzyme ++ "_" ++ direction_type
  let user_direction := (getKey sdirs direction_key).getD ""
  let dist_key : Option String :=
    if user_direction = "up" then some (enzyme ++ " UpstreamDist")
    else if user_direction = "down" then some (enzyme ++ " DownstreamDist")
    else none
  match dist_key with
  | none => .ok (.str "N/A")
  | some k =>
    match getKey rowD k with
    | none => .ok (.str "N/A")
    | some v =>
      if v = "N/A" then .ok (.str "N/A")
      else
        match parseInt v with
        | some n => .ok (.int (n + offset))
        | none => .error v

/-- The loop `for enzyme in lengths.keys(): for direction_type in ['L', 'H']`
of `calculate_final_distances`: set `new_row[<enzyme>_<dtype>]` and add that
composite key to `dynamic_fieldnames`, for the `L` offset then the `H` offset. -/
def finalRowLoop (rowD sdirs : List (String × String)) :
    Lengths → Rec → Finset String → Except String (Rec × Finset String)
  | [], r, fns => .ok (r, fns)
  | (enzyme, lenL, lenH) :: rest, r, fns =>
    match finalCell rowD sdirs lenL enzyme "L" with
    | .error e => .error e
    | .ok vL =>
      match finalCell rowD sdirs lenH enzyme "H" with
      | .error e => .error e
      | .ok vH =>
        finalRowLoop rowD sdirs rest
          (updKey (enzyme ++ "_H") (fun _ => vH) (updKey (enzyme ++ "_L") (fun _ => vL) r))
          (insert (enzyme ++ "_H") (insert (enzyme ++ "_L") fns))

/-- The `new_row` dict literal built from the identity columns of the row. -/
def newRow0 (site_id chrom pos : String) : Rec :=
  [("IntegrationSite#", .str site_id), ("Chromosome", .str chrom), ("Position", .str pos)]

/-- The row loop of `calculate_final_distances` over the `DictReader` rows of
the distances file: read the identity columns (a missing column raises
`KeyError`), fetch this site's directions dict (empty when the site is absent),
then run the per-enzyme loop; each row appends one record. -/
def cfdRows (header : List String) (directions : Directions) (lengths : Lengths) :
    List (List String) → Finset String → Except String (List Rec × Finset String)
  | [], fns => .ok ([], fns)
  | row :: rest, fns =>
    let rowD := header.zip row
    match getKey rowD "IntegrationSite#" with
    | none => .error "IntegrationSite#"
    | some site_id =>
      match getKey rowD "Chromosome" with
      | none => .error "Chromosome"
      | some chrom =>
        match getKey rowD "Position" with
        | none => .error "Position"
        | some pos =>
          let sdirs := (getKey directions site_id).getD []
          match finalRowLoop rowD sdirs lengths (newRow0 site_id chrom pos) fns with
          | .error e => .error e
          | .ok (r, fns') =>
            match cfdRows header directions lengths rest fns' with
            | .error e => .error e
            | .ok (recs, fns'') => .ok (r :: recs, fns'')

/-- The initial `dynamic_fieldnames` set. -/
def baseFieldnames : Finset String := {"IntegrationSite#", "Chromosome", "Position"}

/-- `calculate_final_distances(distances_file, directions, lengths)` from the
source: the first row of the file is the `DictReader` header, the remaining
rows are processed in order. -/
def calculate_final_distances (file : List (List String)) (directions : Directions)
    (lengths : Lengths) : Except String (List Rec × Finset String) :=
  match file with
  | [] => .ok ([], baseFieldnames)
  | header :: rows => cfdRows header directions lengths rows baseFieldnames

/-- `write_final_distances`: always write the header row, then one row per
record, rendering a missing column as the empty string (`DictWriter` restval). -/
def write_final_distances (final_distances : List Rec) (fieldnames : List String) :
    List (List String) :=
  fieldnames :: final_distances.map (fun r => fieldnames.map (fun f =>
    match getKey r f with
    | some v => v.render
    | none => ""))

/-! ### Characterization of `find_closest` -/

theorem find_closest_loop_snd (t : Int) (P : List Int) :
    ∀ up, (find_closest_loop t P up).2 = P.find? (fun x => decide (t < x)) := by
  induction P with
  | nil => intro up; simp [find_closest_loop]
  | cons pos rest ih =>
    intro up
    by_cases h1 : pos < t
    · have h2 : ¬ t < pos := by omega
      simp [find_closest_loop, h1, h2, List.find?_cons, ih]
    · by_cases h2 : t < pos
      · simp [find_closest_loop, h1, h2, List.find?_cons]
      · simp [find_closest_loop, h1, h2, List.find?_cons, ih]

theorem find_gt_eq_some_iff (t : Int) (P : List Int) (hs : List.Sorted (· ≤ ·) P) (d : Int) :
    P.find? (fun x => decide (t < x)) = some d ↔
      d ∈ P ∧ t < d ∧ ∀ x ∈ P, t < x → d ≤ x := by
  induction P with
  | nil => simp
  | cons pos rest ih =>
    rw [List.sorted_cons] at hs
    obtain ⟨hle, hs'⟩ := hs
    by_cases h : t < pos
    · rw [List.find?_cons_of_pos _ (by simpa using h)]
      constructor
      · intro h2
        obtain rfl : pos = d := by simpa using h2
        refine ⟨List.mem_cons_self _ _, h, ?_⟩
        intro x hx _
        rcases List.mem_cons.mp hx with rfl | hx'
        · exact le_refl _
        · exact hle x hx'
      · rintro ⟨hmem, htd, hmin⟩
        have h1 : d ≤ pos := hmin pos (List.mem_cons_self _ _) h
        rcases List.mem_cons.mp hmem with rfl | hmem'
        · rfl
        · have h2 : pos ≤ d := hle d hmem'
          simp [le_antisymm h1 h2]
    · rw [List.find?_cons_of_neg _ (by simpa using h)]
      rw [ih hs']
      constructor
      · rintro ⟨hm, htd, hmin⟩
        refine ⟨List.mem_cons_of_mem _ hm, htd, ?_⟩
        intro x hx hxt
        rcases List.mem_cons.mp hx with rfl | hx'
        · exact absurd hxt h
        · exact hmin x hx' hxt
      · rintro ⟨hm, htd, hmin⟩
        rcases List.mem_cons.mp hm with rfl | hm'
        · exact absurd htd h
        · exact ⟨hm', htd, fun x hx hxt => hmin x (List.mem_cons_of_mem _ hx) hxt⟩

theorem find_closest_loop_fst_some (t : Int) (P : List Int) (hs : List.Sorted (· ≤ ·) P) :
    ∀ (up : Option Int) (u : Int),
      (find_closest_loop t P up).1 = some u ↔
        (u ∈ P ∧ u < t ∧ ∀ x ∈ P, x < t → x ≤ u) ∨
        (up = some u ∧ ∀ x ∈ P, ¬ x < t) := by
  induction P with
  | nil => intro up u; simp [find_closest_loop]
  | cons pos rest ih =>
    rw [List.sorted_cons] at hs
    obtain ⟨hle, hs'⟩ := hs
    intro up u
    by_cases h1 : pos < t
    · rw [show find_closest_loop t (pos :: rest) up = find_closest_loop t rest (some pos) from
        by simp [find_closest_loop, h1]]
      rw [ih hs' (some pos) u]
      constructor
      · rintro (⟨hmem, hut, hmax⟩ | ⟨hpu, hnone⟩)
        · refine Or.inl ⟨List.mem_cons_of_mem _ hmem, hut, ?_⟩
          intro x hx hxt
          rcases List.mem_cons.mp hx with rfl | hx'
          · exact hle u hmem
          · exact hmax x hx' hxt
        · obtain rfl : pos = u := by simpa using hpu
          refine Or.inl ⟨List.mem_cons_self _ _, h1, ?_⟩
          intro x hx hxt
          rcases List.mem_cons.mp hx with rfl | hx'
          · exact le_refl _
          · exact absurd hxt (hnone x hx')
      · rintro (⟨hmem, hut, hmax⟩ | ⟨_, hnone⟩)
        · rcases List.mem_cons.mp hmem with rfl | hmem'
          · by_cases hex : ∀ x ∈ rest, ¬ x < t
            · exact Or.inr ⟨rfl, hex⟩
            · push_neg at hex
              obtain ⟨x, hx, hxt⟩ := hex
              have hxu : x ≤ u := hmax x (List.mem_cons_of_mem _ hx) hxt
              have hux : u ≤ x := hle x hx
              have hxeq : x = u := le_antisymm hxu hux
              subst hxeq
              exact Or.inl ⟨hx, hxt, fun y hy hyt => hmax y (List.mem_cons_of_mem _ hy) hyt⟩
          · exact Or.inl ⟨hmem', hut, fun x hx hxt => hmax x (List.mem_cons_of_mem _ hx) hxt⟩
        · exact absurd h1 (hnone pos (List.mem_cons_self _ _))
    · by_cases h2 : t < pos
      · rw [show find_closest_loop t (pos :: rest) up = (up, some pos) from
          by simp [find_closest_loop, h1, h2]]
        constructor
        · intro h
          refine Or.inr ⟨h, ?_⟩
          intro x hx
          rcases List.mem_cons.mp hx with rfl | hx'
          · exact h1
          · exact not_lt.mpr (le_of_lt (h2.trans_le (hle x hx')))
        · rintro (⟨hmem, hut, _⟩ | ⟨h, _⟩)
          · exfalso
            rcases List.mem_cons.mp hmem with rfl | hmem'
            · exact h1 hut
            · exact h1 (lt_of_le_of_lt (hle u hmem') hut)
          · exact h
      · rw [show find_closest_loop t (pos :: rest) up = find_closest_loop t rest up from
          by simp [find_closest_loop, h1, h2]]
        rw [ih hs' up u]
        constructor
        · rintro (⟨hm, hut, hmax⟩ | ⟨hup, hn⟩)
          · refine Or.inl ⟨List.mem_cons_of_mem _ hm, hut, ?_⟩
            intro x hx hxt
            rcases List.mem_cons.mp hx with rfl | hx'
            · exact absurd hxt h1
            · exact hmax x hx' hxt
          · refine Or.inr ⟨hup, ?_⟩
            intro x hx
            rcases List.mem_cons.mp hx with rfl | hx'
            · exact h1
            · exact hn x hx'
        · rintro (⟨hm, hut, hmax⟩ | ⟨hup, hn⟩)
          · rcases List.mem_cons.mp hm with rfl | hm'
            · exact absurd hut h1
            · exact Or.inl ⟨hm', hut, fun x hx hxt => hmax x (List.mem_cons_of_mem _ hx) hxt⟩
          · exact Or.inr ⟨hup, fun x hx => hn x (List.mem_cons_of_mem _ hx)⟩

theorem find_closest_loop_fst_none (t : Int) (P : List Int) (hs : List.Sorted (· ≤ ·) P) :
    ∀ up, (find_closest_loop t P up).1 = none ↔ (up = none ∧ ∀ x ∈ P, ¬ x < t) := by
  induction P with
  | nil => intro up; simp [find_closest_loop]
  | cons pos rest ih =>
    rw [List.sorted_cons] at hs
    obtain ⟨hle, hs'⟩ := hs
    intro up
    by_cases h1 : pos < t
    · rw [show find_closest_loop t (pos :: rest) up = find_closest_loop t rest (some pos) from
        by simp [find_closest_loop, h1]]
      rw [ih hs' (some pos)]
      simp only [reduceCtorEq, false_and, false_iff, not_and, not_forall]
      intro _
      exact ⟨pos, List.mem_cons_self _ _, by simpa using h1⟩
    · by_cases h2 : t < pos
      · rw [show find_closest_loop t (pos :: rest) up = (up, some pos) from
          by simp [find_closest_loop, h1, h2]]
        constructor
        · intro h
          refine ⟨h, ?_⟩
          intro x hx
          rcases List.mem_cons.mp hx with rfl | hx'
          · exact h1
          · exact not_lt.mpr (le_of_lt (h2.trans_le (hle x hx')))
        · exact fun h => h.1
      · rw [show find_closest_loop t (pos :: rest) up = find_closest_loop t rest up from
          by simp [find_closest_loop, h1, h2]]
        rw [ih hs' up]
        constructor
        · rintro ⟨hup, hn⟩
          refine ⟨hup, ?_⟩
          intro x hx
          rcases List.mem_cons.mp hx with rfl | hx'
          · exact h1
          · exact hn x hx'
        · rintro ⟨hup, hn⟩
          exact ⟨hup, fun x hx => hn x (List.mem_cons_of_mem _ hx)⟩

/-- Claim C1: on an ascending list `P` and target `t`, `find_closest` returns
`(upstream, downstream)` where `upstream` is the greatest element of `P`
strictly less than `t` (`none` when no such element exists) and `downstream` is
the least element of `P` strictly greater than `t` (`none` when none exists);
an element equal to `t` is excluded from both sides, so on the empty list, and
on the list containing exactly `t`, it returns `(none, none)`. -/
theorem find_closest_correct (P : List Int) (t : Int) (hs : List.Sorted (· ≤ ·) P) :
    (∀ u, (find_closest P t).1 = some u ↔
        u ∈ P ∧ u < t ∧ ∀ x ∈ P, x < t → x ≤ u) ∧
    ((find_closest P t).1 = none ↔ ∀ x ∈ P, ¬ x < t) ∧
    (∀ d, (find_closest P t).2 = some d ↔
        d ∈ P ∧ t < d ∧ ∀ x ∈ P, t < x → d ≤ x) ∧
    ((find_closest P t).2 = none ↔ ∀ x ∈ P, ¬ t < x) ∧
    find_closest [] t = (none, none) ∧
    find_closest [t] t = (none, none) := by
  refine ⟨?_, ?_, ?_, ?_, ?_, ?_⟩
  · intro u
    rw [find_closest, find_closest_loop_fst_some t P hs none u]
    simp
  · rw [find_closest, find_closest_loop_fst_none t P hs none]
    simp
  · intro d
    rw [find_closest, find_closest_loop_snd t P none]
    exact find_gt_eq_some_iff t P hs d
  · rw [find_closest, find_closest_loop_snd t P none]
    rw [List.find?_eq_none]
    simp
  · rfl
  · simp [find_closest, find_closest_loop]

/-- Witness for C1: on `P = [100, 500]`, `t = 300`, the sortedness hypothesis
holds and the located upstream neighbour is `100`, the downstream one `500`. -/
theorem find_closest_correct_witness :
    List.Sorted (· ≤ ·) ([100, 500] : List Int) ∧
    (find_closest [100, 500] 300).1 = some 100 ∧
    (find_closest [100, 500] 300).2 = some 500 := by
  have hs : List.Sorted (· ≤ ·) ([100, 500] : List Int) := by decide
  refine ⟨hs, ?_, ?_⟩
  · exact ((find_closest_correct [100, 500] 300 hs).1 100).mpr (by decide)
  · exact ((find_closest_correct [100, 500] 300 hs).2.2.1 500).mpr (by decide)

/-! ### The Fragment Adjustment Engine's per-cell behaviour -/

/-- Claim C4: the engine resolves the target column to `<enzyme> UpstreamDist`
when the assigned direction is `"up"` and to `<enzyme> DownstreamDist` when it
is `"down"`; any other assigned value yields the `'N/A'` sentinel with no
column lookup; a sentinel-valued target column yields the sentinel; otherwise
the result is the parsed integer plus the offset, with no clamping. -/
theorem finalCell_direction_cases (rowD sdirs : List (String × String)) (off : Int)
    (e dt : String) :
    ((getKey sdirs (e ++ "_" ++ dt)).getD "" = "up" →
      (getKey rowD (e ++ " UpstreamDist") = none →
        finalCell rowD sdirs off e dt = .ok (.str "N/A")) ∧
      (∀ v, getKey rowD (e ++ " UpstreamDist") = some v →
        (v = "N/A" → finalCell rowD sdirs off e dt = .ok (.str "N/A")) ∧
        (∀ n, v ≠ "N/A" → parseInt v = some n →
          finalCell rowD sdirs off e dt = .ok (.int (n + off))))) ∧
    ((getKey sdirs (e ++ "_" ++ dt)).getD "" = "down" →
      (getKey rowD (e ++ " DownstreamDist") = none →
        finalCell rowD sdirs off e dt = .ok (.str "N/A")) ∧
      (∀ v, getKey rowD (e ++ " DownstreamDist") = some v →
        (v = "N/A" → finalCell rowD sdirs off e dt = .ok (.str "N/A")) ∧
        (∀ n, v ≠ "N/A" → parseInt v = some n →
          finalCell rowD sdirs off e dt = .ok (.int (n + off))))) ∧
    ((getKey sdirs (e ++ "_" ++ dt)).getD "" ≠ "up" →
     (getKey sdirs (e ++ "_" ++ dt)).getD "" ≠ "down" →
      finalCell rowD sdirs off e dt = .ok (.str "N/A")) := by
  refine ⟨?_, ?_, ?_⟩
  · intro h
    constructor
    · intro hn
      simp [finalCell, h, hn]
    · intro v hv
      constructor
      · intro hNA
        simp [finalCell, h, hv, hNA]
      · intro n hne hp
        simp [finalCell, h, hv, hne, hp]
  · intro h
    constructor
    · intro hn
      simp [finalCell, h, hn]
    · intro v hv
      constructor
      · intro hNA
        simp [finalCell, h, hv, hNA]
      · intro n hne hp
        simp [finalCell, h, hv, hne, hp]
  · intro h1 h2
    simp [finalCell, h1, h2]

/-- A row dict for the witness: the distance table holds `200` upstream of `EcoRI`. -/
def rowD0 : List (String × String) := [("EcoRI UpstreamDist", "200")]

/-- A directions dict for the witness: `EcoRI_L` is assigned `"up"`. -/
def sdirs0 : List (String × String) := [("EcoRI_L", "up")]

/-- Witness for C4: with direction `"up"`, upstream distance `200` and a
negative offset `-300`, the engine produces the unclamped sum `-100`. -/
theorem finalCell_direction_cases_witness :
    (getKey sdirs0 ("EcoRI" ++ "_" ++ "L")).getD "" = "up" ∧
    getKey rowD0 ("EcoRI" ++ " UpstreamDist") = some "200" ∧
    finalCell rowD0 sdirs0 (-300) "EcoRI" "L" = .ok (.int (-100)) := by
  refine ⟨by decide, by decide, ?_⟩
  have h := (((finalCell_direction_cases rowD0 sdirs0 (-300) "EcoRI" "L").1
    (by decide)).2 "200" (by decide)).2 200 (by decide) (by decide)
  have h2 : (200 : Int) + (-300) = -100 := by norm_num
  rw [h2] at h
  exact h

/-! ### The `'N/A'` sentinel -/

/-- Claim C5: an absent raw distance is written as the literal token `"N/A"`
(not an empty field), and stage 2 detects an absent distance by testing the
cell for equality against that exact same token. -/
theorem na_token_consistency :
    (∀ (m : List (String × List Int)) (c : String) (p : Int) (e : String),
        getKey m c = none →
        enzymeFields m c p e = [.str e, .str "N/A", .str "N/A"]) ∧
    (∀ m c p e ps, getKey m c = some ps →
        ((find_closest ps p).1 = none →
          ∃ dc, enzymeFields m c p e = [.str e, .str "N/A", dc]) ∧
        ((find_closest ps p).2 = none →
          ∃ uc, enzymeFields m c p e = [.str e, uc, .str "N/A"])) ∧
    Cell.render (.str "N/A") = "N/A" ∧
    ("N/A" : String) ≠ "" ∧
    (∀ rowD sdirs off e dt v,
        (getKey sdirs (e ++ "_" ++ dt)).getD "" = "up" →
        getKey rowD (e ++ " UpstreamDist") = some v →
        (finalCell rowD sdirs off e dt = .ok (.str "N/A") ↔ v = "N/A")) := by
  refine ⟨?_, ?_, rfl, by decide, ?_⟩
  · intro m c p e h
    simp [enzymeFields, h]
  · intro m c p e ps h
    constructor
    · intro h1
      refine ⟨(match (find_closest ps p).2 with
        | some d => Cell.int (d - p) | none => Cell.str "N/A"), ?_⟩
      simp [enzymeFields, h, h1]
    · intro h2
      refine ⟨(match (find_closest ps p).1 with
        | some u => Cell.int (p - u) | none => Cell.str "N/A"), ?_⟩
      simp [enzymeFields, h, h2]
  · intro rowD sdirs off e dt v h hv
    by_cases hNA : v = "N/A"
    · simp [finalCell, h, hv, hNA]
    · cases hp : parseInt v with
      | some n => simp [finalCell, h, hv, hNA, hp]
      | none => simp [finalCell, h, hv, hNA, hp]

/-- A chromosome map for the C5 witness: only `chr2` is present. -/
def chrMap0 : List (String × List Int) := [("chr2", [1])]

/-- Witness for C5: an enzyme whose index lacks the site's chromosome gets the
literal `"N/A"` token in both distance cells. -/
theorem na_token_consistency_witness :
    getKey chrMap0 "chr1" = none ∧
    enzymeFields chrMap0 "chr1" 5 "E" = [.str "E", .str "N/A", .str "N/A"] := by
  refine ⟨by decide, ?_⟩
  exact na_token_consistency.1 chrMap0 "chr1" 5 "E" (by decide)

/-! ### The writers' empty-input behaviour -/

/-- Claim C6: on an empty Distance Tuple sequence `write_results` performs no
write (no output file is produced) and returns normally; on any non-empty
sequence it does produce a file. -/
theorem write_results_empty_guard :
    write_results [] = none ∧ ∀ r rs, (write_results (r :: rs)).isSome = true :=
  ⟨rfl, fun _ _ => rfl⟩

/-- Claim C10: unlike the stage-1 writer, `write_final_distances` has no
empty-input guard: on an empty record sequence it still produces the file,
consisting of exactly the header row. -/
theorem write_final_distances_no_empty_guard :
    (∀ fieldnames : List String, write_final_distances [] fieldnames = [fieldnames]) ∧
    write_results [] = none :=
  ⟨fun _ => rfl, rfl⟩

/-! ### Malformed rows are skipped, non-integer positions abort -/

theorem readEnzymeRows_filter (rows : List (List String)) :
    ∀ acc, readEnzymeRows rows acc =
      readEnzymeRows (rows.filter (fun r => r.length == 3)) acc := by
  induction rows with
  | nil => intro acc; rfl
  | cons row rest ih =>
    intro acc
    rcases row with _ | ⟨a, _ | ⟨b, _ | ⟨c, _ | ⟨d, tl⟩⟩⟩⟩
    · simp [readEnzymeRows, List.filter_cons, ih]
    · simp [readEnzymeRows, List.filter_cons, ih]
    · simp [readEnzymeRows, List.filter_cons, ih]
    · simp only [List.filter_cons, List.length_cons, List.length_nil]
      norm_num
      cases hp : parseInt c with
      | some p => simp [readEnzymeRows, hp, ih]
      | none => simp [readEnzymeRows, hp]
    · have h : ¬ ((a :: b :: c :: d :: tl).length = 3) := by simp
      simp [readEnzymeRows, List.filter_cons, h, ih]

theorem calcRows_filter (ep : EnzymePositions) (rows : List (List String)) :
    calcRows ep rows = calcRows ep (rows.filter (fun r => r.length == 3)) := by
  induction rows with
  | nil => rfl
  | cons row rest ih =>
    rcases row with _ | ⟨a, _ | ⟨b, _ | ⟨c, _ | ⟨d, tl⟩⟩⟩⟩
    · simp [calcRows, List.filter_cons, ih]
    · simp [calcRows, List.filter_cons, ih]
    · simp [calcRows, List.filter_cons, ih]
    · simp only [List.filter_cons, List.length_cons, List.length_nil]
      norm_num
      cases hp : parseInt c with
      | some p => simp [calcRows, hp, ih]
      | none => simp [calcRows, hp]
    · have h : ¬ ((a :: b :: c :: d :: tl).length = 3) := by simp
      simp [calcRows, List.filter_cons, h, ih]

/-- Claim C7: stage 1 run on inputs with malformed (field count ≠ 3) rows
interleaved produces output identical to the run on the same inputs with the
malformed rows removed. -/
theorem stage1_malformed_rows_skipped (erows irows : List (List String)) :
    stage1 erows irows =
      stage1 (erows.filter (fun r => r.length == 3)) (irows.filter (fun r => r.length == 3)) := by
  have he : read_enzyme_positions erows =
      read_enzyme_positions (erows.filter (fun r => r.length == 3)) := by
    unfold read_enzyme_positions
    rw [readEnzymeRows_filter erows []]
  unfold stage1
  rw [he]
  cases read_enzyme_positions (erows.filter (fun r => r.length == 3)) with
  | error e => rfl
  | ok ep =>
    unfold calculate_distances
    dsimp only
    rw [calcRows_filter ep irows]

theorem isErr_map {α β : Type} (f : α → β) (x : Except String α) :
    isErr (Except.map f x) = isErr x := by
  cases x <;> rfl

theorem readEnzymeRows_bad_int (rows : List (List String)) :
    ∀ acc, (∃ r ∈ rows, ∃ e c p, r = [e, c, p] ∧ parseInt p = none) →
      isErr (readEnzymeRows rows acc) = true := by
  induction rows with
  | nil =>
    intro acc h
    simp at h
  | cons row rest ih =>
    rintro acc ⟨r, hr, e, c, p, hre, hp⟩
    rcases List.mem_cons.mp hr with rfl | hr'
    · subst hre
      simp [readEnzymeRows, hp, isErr]
    · rcases row with _ | ⟨a, _ | ⟨b, _ | ⟨cc, _ | ⟨d, tl⟩⟩⟩⟩
      · simpa [readEnzymeRows] using ih acc ⟨r, hr', e, c, p, hre, hp⟩
      · simpa [readEnzymeRows] using ih acc ⟨r, hr', e, c, p, hre, hp⟩
      · simpa [readEnzymeRows] using ih acc ⟨r, hr', e, c, p, hre, hp⟩
      · cases hq : parseInt cc with
        | some q => simpa [readEnzymeRows, hq] using ih _ ⟨r, hr', e, c, p, hre, hp⟩
        | none => simp [readEnzymeRows, hq, isErr]
      · simpa [readEnzymeRows] using ih acc ⟨r, hr', e, c, p, hre, hp⟩

theorem calcRows_bad_int (ep : EnzymePositions) (rows : List (List String)) :
    (∃ r ∈ rows, ∃ s c p, r = [s, c, p] ∧ parseInt p = none) →
      isErr (calcRows ep rows) = true := by
  induction rows with
  | nil =>
    intro h
    simp at h
  | cons row rest ih =>
    rintro ⟨r, hr, s, c, p, hre, hp⟩
    rcases List.mem_cons.mp hr with rfl | hr'
    · subst hre
      simp [calcRows, hp, isErr]
    · rcases row with _ | ⟨a, _ | ⟨b, _ | ⟨cc, _ | ⟨d, tl⟩⟩⟩⟩
      · simpa [calcRows] using ih ⟨r, hr', s, c, p, hre, hp⟩
      · simpa [calcRows] using ih ⟨r, hr', s, c, p, hre, hp⟩
      · simpa [calcRows] using ih ⟨r, hr', s, c, p, hre, hp⟩
      · cases hq : parseInt cc with
        | some q =>
          have := ih ⟨r, hr', s, c, p, hre, hp⟩
          simpa [calcRows, hq, isErr_map] using this
        | none => simp [calcRows, hq, isErr]
      · simpa [calcRows] using ih ⟨r, hr', s, c, p, hre, hp⟩

/-- Claim C8: a 3-field row whose position field is not a valid integer makes
the whole stage abort with a fatal parse error, in both the enzyme reader and
the integration-site reader — there is no per-row recovery for this failure. -/
theorem bad_position_aborts :
    (∀ rows e c p, [e, c, p] ∈ rows → parseInt p = none →
        isErr (read_enzyme_positions rows) = true) ∧
    (∀ ep rows s c p, [s, c, p] ∈ rows → parseInt p = none →
        isErr (calculate_distances ep rows) = true) := by
  constructor
  · intro rows e c p hmem hp
    unfold read_enzyme_positions
    rw [isErr_map]
    exact readEnzymeRows_bad_int rows [] ⟨[e, c, p], hmem, e, c, p, rfl, hp⟩
  · intro ep rows s c p hmem hp
    exact calcRows_bad_int ep rows ⟨[s, c, p], hmem, s, c, p, rfl, hp⟩

/-- Witness for C8: the single row `["E", "chr1", "abc"]` has three fields but a
non-integer position, and the enzyme reader aborts on it. -/
theorem bad_position_aborts_witness :
    parseInt "abc" = none ∧
    isErr (read_enzyme_positions [["E", "chr1", "abc"]]) = true :=
  ⟨rfl, bad_position_aborts.1 [["E", "chr1", "abc"]] "E" "chr1" "abc" (by simp) rfl⟩

/-! ### Completeness of the Final Distance Records and fieldnames -/

/-- The composite `<enzyme>_<offset>` names contributed by a Fragment Length Spec. -/
def compositeNames (lens : Lengths) : Finset String :=
  lens.foldr (fun x s => insert (x.1 ++ "_L") (insert (x.1 ++ "_H") s)) ∅

theorem getKey_cons {α : Type} (k1 : String) (v : α) (rest : List (String × α)) (k2 : String) :
    getKey ((k1, v) :: rest) k2 = if k1 = k2 then some v else getKey rest k2 := by
  by_cases h : k1 = k2 <;> simp [getKey, List.find?_cons, h]

theorem getKey_updKey {α : Type} (k k2 : String) (f : Option α → α) (l : List (String × α)) :
    getKey (updKey k f l) k2 = if k2 = k then some (f (getKey l k)) else getKey l k2 := by
  induction l with
  | nil =>
    rw [show updKey k f ([] : List (String × α)) = [(k, f none)] from rfl, getKey_cons]
    by_cases h : k2 = k
    · rw [if_pos h.symm, if_pos h]
      rfl
    · rw [if_neg (fun hh => h hh.symm), if_neg h]
  | cons kv rest ih =>
    obtain ⟨k1, v⟩ := kv
    by_cases h1 : k1 = k
    · subst h1
      rw [show updKey k1 f ((k1, v) :: rest) = (k1, f (some v)) :: rest from by simp [updKey]]
      have hin : getKey ((k1, v) :: rest) k1 = some v := by rw [getKey_cons, if_pos rfl]
      rw [hin, getKey_cons]
      by_cases h2 : k2 = k1
      · rw [if_pos h2.symm, if_pos h2]
      · rw [if_neg (fun hh => h2 hh.symm), if_neg h2, getKey_cons,
          if_neg (fun hh => h2 hh.symm)]
    · rw [show updKey k f ((k1, v) :: rest) = (k1, v) :: updKey k f rest from by
        simp [updKey, h1]]
      by_cases h2 : k1 = k2
      · subst h2
        rw [getKey_cons, if_pos rfl, if_neg h1, getKey_cons, if_pos rfl]
      · rw [getKey_cons, if_neg h2, ih]
        have hin : getKey ((k1, v) :: rest) k = getKey rest k := by
          rw [getKey_cons, if_neg h1]
        have hin2 : getKey ((k1, v) :: rest) k2 = getKey rest k2 := by
          rw [getKey_cons, if_neg h2]
        rw [hin, hin2]

theorem finalRowLoop_ok_fns (rowD sdirs : List (String × String)) (lens : Lengths) :
    ∀ (r : Rec) (fns : Finset String) (r' : Rec) (fns' : Finset String),
      finalRowLoop rowD sdirs lens r fns = .ok (r', fns') →
      fns' = compositeNames lens ∪ fns := by
  induction lens with
  | nil =>
    intro r fns r' fns' h
    simp only [finalRowLoop, Except.ok.injEq, Prod.mk.injEq] at h
    simp [compositeNames, ← h.2]
  | cons x rest ih =>
    obtain ⟨e, lL, lH⟩ := x
    intro r fns r' fns' h
    simp only [finalRowLoop] at h
    cases hL : finalCell rowD sdirs lL e "L" with
    | error er => rw [hL] at h; simp at h
    | ok vL =>
      rw [hL] at h
      cases hH : finalCell rowD sdirs lH e "H" with
      | error er => rw [hH] at h; simp at h
      | ok vH =>
        rw [hH] at h
        dsimp only at h
        rw [ih _ _ _ _ h]
        ext y
        simp [compositeNames]
        tauto

theorem finalRowLoop_preserves (rowD sdirs : List (String × String)) (lens : Lengths) :
    ∀ (r : Rec) (fns : Finset String) (r' : Rec) (fns' : Finset String) (k : String),
      finalRowLoop rowD sdirs lens r fns = .ok (r', fns') →
      (getKey r k).isSome = true → (getKey r' k).isSome = true := by
  induction lens with
  | nil =>
    intro r fns r' fns' k h hk
    simp only [finalRowLoop, Except.ok.injEq, Prod.mk.injEq] at h
    rw [← h.1]
    exact hk
  | cons x rest ih =>
    obtain ⟨e, lL, lH⟩ := x
    intro r fns r' fns' k h hk
    simp only [finalRowLoop] at h
    cases hL : finalCell rowD sdirs lL e "L" with
    | error er => rw [hL] at h; simp at h
    | ok vL =>
      rw [hL] at h
      cases hH : finalCell rowD sdirs lH e "H" with
      | error er => rw [hH] at h; simp at h
      | ok vH =>
        rw [hH] at h
        dsimp only at h
        refine ih _ _ _ _ k h ?_
        rw [getKey_updKey]
        by_cases h1 : k = e ++ "_H"
        · rw [if_pos h1]; rfl
        · rw [if_neg h1, getKey_updKey]
          by_cases h2 : k = e ++ "_L"
          · rw [if_pos h2]; rfl
          · rw [if_neg h2]; exact hk

theorem finalRowLoop_sets (rowD sdirs : List (String × String)) (lens : Lengths) :
    ∀ (r : Rec) (fns : Finset String) (r' : Rec) (fns' : Finset String),
      finalRowLoop rowD sdirs lens r fns = .ok (r', fns') →
      ∀ x ∈ lens, (getKey r' (x.1 ++ "_L")).isSome = true ∧
        (getKey r' (x.1 ++ "_H")).isSome = true := by
  induction lens with
  | nil =>
    intro r fns r' fns' _ x hx
    simp at hx
  | cons y rest ih =>
    obtain ⟨e, lL, lH⟩ := y
    intro r fns r' fns' h x hx
    simp only [finalRowLoop] at h
    cases hL : finalCell rowD sdirs lL e "L" with
    | error er => rw [hL] at h; simp at h
    | ok vL =>
      rw [hL] at h
      cases hH : finalCell rowD sdirs lH e "H" with
      | error er => rw [hH] at h; simp at h
      | ok vH =>
        rw [hH] at h
        dsimp only at h
        rcases List.mem_cons.mp hx with rfl | hx'
        · constructor
          · refine finalRowLoop_preserves rowD sdirs rest _ _ _ _ _ h ?_
            rw [getKey_updKey]
            by_cases h1 : (e, lL, lH).1 ++ "_L" = e ++ "_H"
            · rw [if_pos h1]; rfl
            · rw [if_neg h1, getKey_updKey, if_pos rfl]; rfl
          · refine finalRowLoop_preserves rowD sdirs rest _ _ _ _ _ h ?_
            rw [getKey_updKey, if_pos rfl]; rfl
        · exact ih _ _ _ _ h x hx'

theorem cfdRows_ok (header : List String) (dirs : Directions) (lens : Lengths) :
    ∀ (rows : List (List String)) (fns : Finset String) (recs : List Rec)
      (fns' : Finset String),
      cfdRows header dirs lens rows fns = .ok (recs, fns') →
      (recs = [] → fns' = fns) ∧
      (recs ≠ [] → fns' = compositeNames lens ∪ fns) ∧
      (∀ r ∈ recs, ∀ x ∈ lens, (getKey r (x.1 ++ "_L")).isSome = true ∧
        (getKey r (x.1 ++ "_H")).isSome = true) := by
  intro rows
  induction rows with
  | nil =>
    intro fns recs fns' h
    simp only [cfdRows, Except.ok.injEq, Prod.mk.injEq] at h
    obtain ⟨hrecs, hfns⟩ := h
    refine ⟨fun _ => hfns.symm, fun hne => absurd hrecs.symm hne, ?_⟩
    intro r hr
    rw [← hrecs] at hr
    simp at hr
  | cons row rest ih =>
    intro fns recs fns' h
    simp only [cfdRows] at h
    cases h1 : getKey (header.zip row) "IntegrationSite#" with
    | none => rw [h1] at h; simp at h
    | some site_id =>
      rw [h1] at h
      cases h2 : getKey (header.zip row) "Chromosome" with
      | none => rw [h2] at h; simp at h
      | some chrom =>
        rw [h2] at h
        cases h3 : getKey (header.zip row) "Position" with
        | none => rw [h3] at h; simp at h
        | some pos =>
          rw [h3] at h
          dsimp only at h
          cases h4 : finalRowLoop (header.zip row) ((getKey dirs site_id).getD [])
              lens (newRow0 site_id chrom pos) fns with
          | error er => rw [h4] at h; simp at h
          | ok rf =>
            obtain ⟨r, fns1⟩ := rf
            rw [h4] at h
            dsimp only at h
            cases h5 : cfdRows header dirs lens rest fns1 with
            | error er => rw [h5] at h; simp at h
            | ok rf2 =>
              obtain ⟨recs0, fns2⟩ := rf2
              rw [h5] at h
              simp only [Except.ok.injEq, Prod.mk.injEq] at h
              obtain ⟨hrecs, hfns⟩ := h
              have hfns1 : fns1 = compositeNames lens ∪ fns :=
                finalRowLoop_ok_fns _ _ _ _ _ _ _ h4
              have IH := ih fns1 recs0 fns2 h5
              refine ⟨?_, ?_, ?_⟩
              · intro hempty
                rw [← hrecs] at hempty
                simp at hempty
              · intro _
                by_cases hnil : recs0 = []
                · subst hnil
                  rw [← hfns, IH.1 rfl, hfns1]
                · rw [← hfns, IH.2.1 hnil, hfns1]
                  ext y
                  simp only [Finset.mem_union]
                  tauto
              · intro r2 hr2 x hx
                rw [← hrecs] at hr2
                rcases List.mem_cons.mp hr2 with rfl | hr2'
                · exact finalRowLoop_sets _ _ _ _ _ _ _ h4 x hx
                · exact IH.2.2 r2 hr2' x hx

/-- Counterexample to C9 as stated: with a one-enzyme Fragment Length Spec but a
distance file containing no data rows, the composite names are never added, so
the returned fieldname set is only the three identity columns and lacks
`"EcoRI_L"` even though `EcoRI` is in the Spec. -/
theorem cfd_fieldnames_empty_counterexample :
    calculate_final_distances [["IntegrationSite#", "Chromosome", "Position"]] []
        [("EcoRI", 50, 60)] = .ok ([], baseFieldnames) ∧
    "EcoRI_L" ∉ baseFieldnames ∧
    ("EcoRI", (50 : Int), (60 : Int)) ∈ ([("EcoRI", 50, 60)] : Lengths) := by
  decide

/-- Claim C9 (amended: provided at least one record is produced, i.e. the
distance table has at least one data row): every Final Distance Record has an
explicit entry for every `(enzyme, offset)` pair of the Fragment Length Spec,
and the returned fieldname set is exactly the three identity columns together
with the composite `<enzyme>_<offset>` names. -/
theorem cfd_fieldnames_complete (file : List (List String)) (dirs : Directions)
    (lens : Lengths) (recs : List Rec) (fns : Finset String)
    (h : calculate_final_distances file dirs lens = .ok (recs, fns))
    (hne : recs ≠ []) :
    fns = baseFieldnames ∪ compositeNames lens ∧
    ∀ r ∈ recs, ∀ x ∈ lens,
      (getKey r (x.1 ++ "_L")).isSome = true ∧ (getKey r (x.1 ++ "_H")).isSome = true := by
  cases file with
  | nil =>
    simp only [calculate_final_distances, Except.ok.injEq, Prod.mk.injEq] at h
    exact absurd h.1.symm hne
  | cons header rows =>
    simp only [calculate_final_distances] at h
    have H := cfdRows_ok header dirs lens rows baseFieldnames recs fns h
    refine ⟨?_, H.2.2⟩
    rw [H.2.1 hne]
    exact Finset.union_comm _ _

/-- The stage-1 output table used as stage-2 input in the witnesses. -/
def distFile0 : List (List String) :=
  [["IntegrationSite#", "Chromosome", "Position", "EcoRI UpstreamDist", "EcoRI DownstreamDist"],
   ["site1", "chr1", "300", "EcoRI", "200", "200"]]

/-- The record produced from `distFile0` when no direction is assigned. -/
def rec0 : Rec :=
  [("IntegrationSite#", .str "site1"), ("Chromosome", .str "chr1"), ("Position", .str "300"),
   ("EcoRI_L", .str "N/A"), ("EcoRI_H", .str "N/A")]

/-- Witness for C9 (amended): a one-row distance table with a one-enzyme Spec
produces one record carrying both composite entries, and the fieldname set is
the identity columns plus both composite names. -/
theorem cfd_fieldnames_complete_witness :
    calculate_final_distances distFile0 [] [("EcoRI", 50, 60)] =
      .ok ([rec0], insert "EcoRI_H" (insert "EcoRI_L" baseFieldnames)) ∧
    insert "EcoRI_H" (insert "EcoRI_L" baseFieldnames) =
      baseFieldnames ∪ compositeNames [("EcoRI", 50, 60)] ∧
    (getKey rec0 ("EcoRI" ++ "_L")).isSome = true := by
  have h : calculate_final_distances distFile0 [] [("EcoRI", 50, 60)] =
      .ok ([rec0], insert "EcoRI_H" (insert "EcoRI_L" baseFieldnames)) := by decide
  have H := cfd_fieldnames_complete distFile0 [] [("EcoRI", 50, 60)] [rec0] _ h (by simp)
  exact ⟨h, H.1, (H.2 rec0 (by simp) ("EcoRI", 50, 60) (by simp)).1⟩

/-! ### The header/row mismatch of the stage-1 output on the spec example -/

/-- Claim C2 (evaluation at the failing input): on the spec's own example the
stage-1 writer emits a 5-column header but a 6-column data row — each data row
repeats the enzyme name before its two distances, so rows do not match the
header. -/
theorem stage1_header_row_mismatch :
    stage1 [["EcoRI", "chr1", "100"], ["EcoRI", "chr1", "500"]] [["site1", "chr1", "300"]] =
      .ok (some
        [["IntegrationSite#", "Chromosome", "Position", "EcoRI UpstreamDist",
          "EcoRI DownstreamDist"],
         ["site1", "chr1", "300", "EcoRI", "200", "200"]]) ∧
    (["IntegrationSite#", "Chromosome", "Position", "EcoRI UpstreamDist",
      "EcoRI DownstreamDist"] : List String).length = 5 ∧
    (["site1", "chr1", "300", "EcoRI", "200", "200"] : List String).length = 6 := by
  refine ⟨by decide, rfl, rfl⟩

/-- Claim C3 (evaluation at the failing input): feeding the stage-1 output
directly into stage 2 with an all-`"up"` direction assignment crashes: the
misaligned columns put the enzyme name `"EcoRI"` under the header
`"EcoRI UpstreamDist"`, and `int("EcoRI")` raises `ValueError` instead of
producing `200 + 50`. -/
theorem stage2_roundtrip_crashes :
    calculate_final_distances distFile0
      [("site1", [("EcoRI_L", "up"), ("EcoRI_H", "up")])]
      [("EcoRI", 50, 60)] = .error "EcoRI" := by
  decide
